import Mathlib

/-!
Verification development for the RAGBook booking assistant.

A shallow embedding of the core components:
* `src/rag_system/vector_store.py` — `VectorStore` (embedding client, record
  upsert, nearest-neighbour search, exact-match metadata lookup, reset);
* `src/agent/tools.py` — `search_knowledge_base` with its remote-primary /
  local-fallback strategy and `_search_local_knowledge_base`;
* `src/agent/agent.py` — `BookingAssistant` (history trimming, tool dispatch,
  the tool-calling conversation loop).

External collaborators (the Gemini model, the Gemini embedding endpoint, the
remote `/search` proxy, ChromaDB) are modelled as explicit oracles or as the
documented behaviour of their interfaces; everything the repository itself
computes is translated directly from the Python source.
-/

/-- A single quote character, used inside several message strings. -/
def squote : String := String.singleton (Char.ofNat 39)

/-! ## Metadata values (Python dict values as stored in records) -/

/-- A Python value appearing in a document's metadata mapping.  Scalars are
strings, ints, floats (modelled by rationals) and bools; `listv` and `nullv`
stand for the non-scalar values (lists/dicts and `None`) that ChromaDB cannot
store and that `add_documents` filters out. -/
inductive MValue where
  | str (s : String)
  | int (n : Int)
  | float (q : ℚ)
  | bool (b : Bool)
  | listv (elems : List String)
  | nullv
deriving DecidableEq, Repr

/-- Python truthiness of a metadata value (`if page:` in the source). -/
def MValue.truthy : MValue → Bool
  | .str s => s ≠ ""
  | .int n => n ≠ 0
  | .float q => q ≠ 0
  | .bool b => b
  | .listv xs => xs ≠ []
  | .nullv => false

/-- Rendering of a metadata value inside an f-string, mirroring Python `str`. -/
def MValue.render : MValue → String
  | .str s => s
  | .int n => toString n
  | .float q => toString q
  | .bool b => if b then "True" else "False"
  | .listv xs => String.intercalate ", " xs
  | .nullv => "None"

/-- `isinstance(value, (str, int, float, bool))` — the scalar filter used by
`VectorStore.add_documents`. -/
def MValue.isScalar : MValue → Bool
  | .str _ => true
  | .int _ => true
  | .float _ => true
  | .bool _ => true
  | .listv _ => false
  | .nullv => false

/-- A Python dict with string keys, as an insertion-ordered association list
with unique keys (Python dicts preserve insertion order). -/
abbrev Metadata := List (String × MValue)

/-- `d.get(k)` — first binding of `k`, if any. -/
def mget (m : Metadata) (k : String) : Option MValue :=
  (m.find? (fun kv => kv.1 == k)).map (·.2)

/-- `d.get(k, default)`. -/
def mgetD (m : Metadata) (k : String) (d : MValue) : MValue :=
  (mget m k).getD d

/-- `d[k] = v` — overwrite in place if the key exists, else append. -/
def mset (m : Metadata) (k : String) (v : MValue) : Metadata :=
  if m.any (fun kv => kv.1 == k) then
    m.map (fun kv => if kv.1 == k then (k, v) else kv)
  else
    m ++ [(k, v)]

/-- Keep only the scalar-typed entries, preserving order — the loop
`if isinstance(value, (str, int, float, bool)): metadata[key] = value`. -/
def filterScalar (m : Metadata) : Metadata :=
  m.filter (fun kv => kv.2.isScalar)

/-! ## The vector store (`src/rag_system/vector_store.py`) -/

/-- The Gemini embedding endpoint, as an oracle: for a given text it either
returns a vector (`Except.ok`) or raises (`Except.error`).  The source calls
it once per text with `task_type` `retrieval_document` or `retrieval_query`;
the two task types are modelled as two separate oracles. -/
abbrev EmbedOracle := String → Except String (List ℚ)

/-- A record stored in the ChromaDB collection: id, embedding, document text
and (scalar-only) metadata.  `uuid.uuid4()` is modelled by a fresh natural
number drawn from a counter supply. -/
structure Record where
  id : Nat
  embedding : List ℚ
  text : String
  metadata : Metadata
deriving DecidableEq, Repr

/-- The persisted collection, in insertion order. -/
abbrev Collection := List Record

/-- An input to `add_documents`: a dict with `content`, `title` and
`metadata` keys. -/
structure Doc where
  content : String
  title : String
  metadata : Metadata
deriving DecidableEq, Repr

/-- Effects issued by one `add_documents` call: the texts sent to the
embedding endpoint, and whether a `collection.add` write was issued. -/
structure AddEffects where
  embedCalls : List String
  addIssued : Bool
deriving DecidableEq, Repr

namespace VectorStore

/-- `VectorStore._get_embedding`: call the embedding API with task type
`retrieval_document`; on any exception return the 768-dimensional zero
vector. -/
def _get_embedding (oracle : EmbedOracle) (text : String) : List ℚ :=
  match oracle text with
  | .ok v => v
  | .error _ => List.replicate 768 0

/-- `VectorStore._get_query_embedding`: same with task type
`retrieval_query`. -/
def _get_query_embedding (oracle : EmbedOracle) (text : String) : List ℚ :=
  match oracle text with
  | .ok v => v
  | .error _ => List.replicate 768 0

/-- The record built for one document inside the `add_documents` loop:
a fresh id, the document embedding, and the scalar-filtered metadata with
`metadata['title'] = doc['title']` written afterwards. -/
def mkRecord (idv : Nat) (oracle : EmbedOracle) (d : Doc) : Record :=
  { id := idv
    embedding := _get_embedding oracle d.content
    text := d.content
    metadata := mset (filterScalar d.metadata) "title" (MValue.str d.title) }

/-- The per-document loop of `add_documents`, consuming one fresh id per
document. -/
def buildRecs (supply : Nat) (oracle : EmbedOracle) : List Doc → List Record
  | [] => []
  | d :: ds => mkRecord supply oracle d :: buildRecs (supply + 1) oracle ds

/-- `VectorStore.add_documents`: `if not documents: return` short-circuits
with no effects; otherwise build ids/embeddings/metadatas/texts and issue one
`collection.add`. -/
def add_documents (supply : Nat) (oracle : EmbedOracle) (st : Collection)
    (docs : List Doc) : Collection × AddEffects :=
  match docs with
  | [] => (st, { embedCalls := [], addIssued := false })
  | _ =>
    (st ++ buildRecs supply oracle docs,
     { embedCalls := docs.map (·.content), addIssued := true })

/-- Squared L2 distance between two vectors, ChromaDB's default metric. -/
def sqDist (a b : List ℚ) : ℚ :=
  ((a.zip b).map (fun p => (p.1 - p.2) * (p.1 - p.2))).sum

/-- Insert a record into a list sorted by ascending distance to `qe`. -/
def insertByDist (qe : List ℚ) (r : Record) : List Record → List Record
  | [] => [r]
  | x :: xs =>
    if sqDist r.embedding qe ≤ sqDist x.embedding qe then r :: x :: xs
    else x :: insertByDist qe r xs

/-- All records ordered by ascending distance to the query embedding —
the ordering contract of `collection.query`. -/
def rankByDist (qe : List ℚ) : Collection → List Record
  | [] => []
  | r :: rs => insertByDist qe r (rankByDist qe rs)

/-- One formatted search hit, mirroring the result dict built by
`VectorStore.search`. -/
structure SearchResult where
  content : String
  metadata : Metadata
  similarity_score : ℚ
  title : MValue
  source_file : MValue
  page_number : Option MValue
  chunk_id : Option MValue
  original_document_id : Option MValue
  has_full_context : Bool
deriving DecidableEq, Repr

/-- The result dict built for one returned record. -/
def formatHit (qe : List ℚ) (r : Record) : SearchResult :=
  { content := r.text
    metadata := r.metadata
    similarity_score := 1 - sqDist r.embedding qe
    title := mgetD r.metadata "title" (MValue.str "Unknown")
    source_file := mgetD r.metadata "source_file" (MValue.str "Unknown")
    page_number := mget r.metadata "page_number"
    chunk_id := mget r.metadata "chunk_id"
    original_document_id := mget r.metadata "original_document_id"
    has_full_context := (mget r.metadata "full_content").isSome }

/-- `VectorStore.search`: embed the query (zero vector on provider failure),
take the `top_k` nearest records, and format each.  An empty collection
yields an empty result list. -/
def search (oracle : EmbedOracle) (st : Collection) (query : String)
    (top_k : Nat) : List SearchResult :=
  let qe := _get_query_embedding oracle query
  ((rankByDist qe st).take top_k).map (formatHit qe)

/-- The dict returned by `VectorStore.get_full_context` on success. -/
structure FullContext where
  full_content : MValue
  title : MValue
  source_file : MValue
  page_number : Option MValue
  total_pages : Option MValue
  file_type : Option MValue
deriving DecidableEq, Repr

/-- `VectorStore.get_full_context`: `collection.get(where = ..., limit = 1)`
returns the first record (in insertion order) whose metadata maps
`original_document_id` to the given string; `none` models the
`\x7b'error': 'Document not found'\x7d` dict. -/
def get_full_context (st : Collection) (odi : String) : Option FullContext :=
  match st.find?
      (fun r => mget r.metadata "original_document_id" == some (MValue.str odi)) with
  | some r =>
    some { full_content := mgetD r.metadata "full_content" (MValue.str "")
           title := mgetD r.metadata "title" (MValue.str "Unknown")
           source_file := mgetD r.metadata "source_file" (MValue.str "Unknown")
           page_number := mget r.metadata "page_number"
           total_pages := mget r.metadata "total_pages"
           file_type := mget r.metadata "file_type" }
  | none => none

/-- `VectorStore.reset_collection`: drop all records and recreate the empty
collection under the same name. -/
def reset_collection (_st : Collection) : Collection := []

end VectorStore

/-! ## Retrieval tools (`src/agent/tools.py`) -/

/-- The fixed message returned when no results are found through either
retrieval path. -/
def noInfoMsg : String :=
  "No relevant information found in the knowledge base. The user may need to upload documents first."

/-- The visible separator joining formatted context blocks. -/
def blockSep : String := "\n\n---\n\n"

/-- `f" (Page \x7bpage\x7d)" if page else ""` where `page` came from a `.get`
that may have produced the falsy default. -/
def pageInfoOf (page : Option MValue) : String :=
  match page with
  | some v => if v.truthy then " (Page " ++ v.render ++ ")" else ""
  | none => ""

/-- One context block of `_search_local_knowledge_base`: the local result
dict always carries `source_file` (already defaulted), `page_number`
(possibly `None`) and `content`. -/
def localBlock (r : VectorStore.SearchResult) : String :=
  "[Source: " ++ r.source_file.render ++ pageInfoOf r.page_number ++ "]\n"
    ++ r.content

/-- `_search_local_knowledge_base`: search the local vector store with
`top_k = 3`; empty results give the fixed no-information message, otherwise
the formatted blocks joined by the separator.  (The Python wraps this in a
`try`, but in the embedding the local search is total.) -/
def _search_local_knowledge_base (oracle : EmbedOracle) (st : Collection)
    (query : String) : String :=
  let results := VectorStore.search oracle st query 3
  if results.isEmpty then noInfoMsg
  else String.intercalate blockSep (results.map localBlock)

/-- A raw result dict from the remote `/search` endpoint's JSON body. -/
abbrev RemoteResult := Metadata

/-- One context block of the remote path of `search_knowledge_base`:
`result.get('source_file', 'Unknown')`, `result.get('page_number', '')`
(absent key gives the falsy default) and `result.get('content', '')`. -/
def remoteBlock (r : RemoteResult) : String :=
  "[Source: " ++ (mgetD r "source_file" (MValue.str "Unknown")).render
    ++ pageInfoOf (mget r "page_number") ++ "]\n"
    ++ (mgetD r "content" (MValue.str "")).render

/-- The observable outcome of the `requests.post` call to the remote
`/search` endpoint: either an HTTP response with a status code and a JSON
parse outcome (parsing is only attempted when the status is 200), or a
raised `requests.exceptions.RequestException` (timeouts included). -/
inductive RemoteOutcome where
  | http (status : Nat) (body : Except String (List RemoteResult))
  | netExn (msg : String)

/-- `search_knowledge_base`: try the remote endpoint with
`\x7bquery, top_k: 3\x7d`; a non-200 status or a network exception falls back
to `_search_local_knowledge_base` on the same query; a 200 response with a
JSON error becomes the generic error string; empty results give the fixed
no-information message; otherwise the formatted blocks. -/
def search_knowledge_base (remote : RemoteOutcome) (oracle : EmbedOracle)
    (st : Collection) (query : String) : String :=
  match remote with
  | .netExn _ => _search_local_knowledge_base oracle st query
  | .http status body =>
    if status ≠ 200 then _search_local_knowledge_base oracle st query
    else
      match body with
      | .error e => "Error searching knowledge base: " ++ e
      | .ok results =>
        if results.isEmpty then noInfoMsg
        else String.intercalate blockSep (results.map remoteBlock)

/-! ## The booking assistant (`src/agent/agent.py`) -/

/-- One entry of `self.chat_history`: a dict with `role` and `content`. -/
structure Entry where
  role : String
  content : String
deriving DecidableEq, Repr

/-- `BookingAssistant._trim_history`: when the history exceeds
`max_history * 2` entries, keep `chat_history[-(max_history * 2):]`.  Python
slice semantics: for a positive bound the slice keeps the last
`max_history * 2` entries, but `[-0:]` is the whole list, so with
`max_history = 0` nothing is dropped. -/
def trim_history (max_history : Nat) (h : List Entry) : List Entry :=
  if h.length > max_history * 2 then
    if max_history * 2 = 0 then h
    else h.drop (h.length - max_history * 2)
  else h

/-- One successful `chat` call's effect on the history: append the user and
assistant entries, then trim. -/
def chatAppend (max_history : Nat) (h : List Entry) (p : Entry × Entry) :
    List Entry :=
  trim_history max_history (h ++ [p.1, p.2])

/-- The history after a sequence of successful `chat` calls starting from
the given history, each call contributing one (user, assistant) pair. -/
def runChats (max_history : Nat) (h : List Entry) :
    List (Entry × Entry) → List Entry
  | [] => h
  | p :: ps => runChats max_history (chatAppend max_history h p) ps

/-- The history after `N` successful `chat` calls on a fresh session. -/
def chatHistoryAfter (max_history : Nat) (pairs : List (Entry × Entry)) :
    List Entry :=
  runChats max_history [] pairs

/-- All appended entries of a sequence of exchanges, in append order. -/
def allEntries : List (Entry × Entry) → List Entry
  | [] => []
  | p :: ps => p.1 :: p.2 :: allEntries ps

/-- The last `n` elements of a list. -/
def takeLast (n : Nat) (l : List Entry) : List Entry :=
  l.drop (l.length - n)

/-! ### Tool dispatch (`BookingAssistant._execute_tool`) -/

/-- The argument mapping of a function call (`dict(function_call.args)`). -/
abbrev Args := List (String × MValue)

/-- A registered tool: a callable on named arguments that either returns a
string or raises (any exception, argument-mismatch `TypeError` included). -/
abbrev ToolFn := Args → Except String String

/-- A tool registry such as `TOOL_MAP`: a mapping from tool name to
callable. -/
abbrev ToolMap := List (String × ToolFn)

/-- `tool_name not in TOOL_MAP` / `TOOL_MAP[tool_name]`. -/
def lookupTool (toolMap : ToolMap) (name : String) : Option ToolFn :=
  (toolMap.find? (fun kv => kv.1 == name)).map (·.2)

/-- The names registered in the source's `TOOL_MAP`. -/
def TOOL_NAMES : List String :=
  ["search_knowledge_base", "create_booking", "send_confirmation_email",
   "get_booking_info", "web_search_movies"]

/-- `BookingAssistant._execute_tool`: unknown names give the fixed error
string; a raising callable is caught and converted to
`"Error executing \x7bname\x7d: \x7bdetail\x7d"`; otherwise the tool's string
result is returned. -/
def _execute_tool (toolMap : ToolMap) (name : String) (args : Args) : String :=
  match lookupTool toolMap name with
  | none => "Error: Unknown tool " ++ squote ++ name ++ squote
  | some f =>
    match f args with
    | .ok r => r
    | .error e => "Error executing " ++ name ++ ": " ++ e

/-! ### The conversation loop (`BookingAssistant.chat`) -/

/-- One part of a model response.  In the protobuf every part carries both a
`function_call` (with possibly empty name) and a `text` (possibly empty);
the loop tests `part.function_call.name` and `part.text` for truthiness. -/
structure MsgPart where
  fcName : String := ""
  fcArgs : Args := []
  text : String := ""
deriving Repr, DecidableEq

/-- One candidate of a model response. -/
structure Candidate where
  parts : List MsgPart
  finish_reason : Nat := 0
deriving Repr, DecidableEq

/-- A model response (`response.candidates` may be empty, in which case
`response.candidates[0]` raises an `IndexError`). -/
structure Response where
  candidates : List Candidate
deriving Repr, DecidableEq

/-- The part-scanning loop inside `chat`: walk the parts in order, stop at
the first part whose `function_call.name` is nonempty (`break`), collecting
the nonempty texts seen before it. -/
def scanParts : List MsgPart → Option MsgPart × List String
  | [] => (none, [])
  | p :: ps =>
    if p.fcName ≠ "" then (some p, [])
    else if p.text ≠ "" then
      ((scanParts ps).1, p.text :: (scanParts ps).2)
    else scanParts ps

/-- Outcome of the tool-calling `while` loop. -/
inductive LoopOut where
  | done (execs : List (String × String)) (final : Response)
  | exn (msg : String)
  | fuel
deriving Repr, DecidableEq

/-- The model oracle: the outcomes of the successive `send_message` calls
made after the first one (each either raises or returns a response). -/
abbrev ModelOutcomes := List (Except String Response)

/-- The head of one iteration of the `while` loop in `chat`: evaluate
`response.candidates[0].content.parts` (an empty candidate list raises an
`IndexError`, here `Except.error`), exit the loop when the parts are empty
or contain no function call, and otherwise hand back the extracted first
function-call part. -/
def cycleScan (resp : Response) : Except String (Option MsgPart) :=
  match resp.candidates with
  | [] => .error "list index out of range"
  | cand :: _ =>
    if cand.parts.isEmpty then .ok none
    else .ok (scanParts cand.parts).1

/-- The `while response.candidates[0].content.parts:` loop of `chat`.  Each
iteration scans the parts of the current response; if a function call is
found, it is dispatched through `_execute_tool` and the tool result is sent
back to the model, whose next outcome is drawn from the oracle; otherwise
the loop breaks.  `exn` is an exception escaping to `chat`'s handler;
`fuel` marks oracle exhaustion, a model artifact. -/
def runLoop (toolMap : ToolMap) : Response → ModelOutcomes → LoopOut
  | resp, [] =>
    match cycleScan resp with
    | .error e => .exn e
    | .ok none => .done [] resp
    | .ok (some _) => .fuel
  | resp, o :: rest =>
    match cycleScan resp with
    | .error e => .exn e
    | .ok none => .done [] resp
    | .ok (some fc) =>
      match o with
      | .error e => .exn e
      | .ok r =>
        match runLoop toolMap r rest with
        | .done es fin =>
          .done ((fc.fcName, _execute_tool toolMap fc.fcName fc.fcArgs) :: es)
            fin
        | o2 => o2

/-- `BookingAssistant._extract_response_text`, modelled on the candidate
scan: join the nonempty text parts with a newline when there are any, else
map the finish reason (3 = SAFETY, 12 = BLOCKLIST) to its fixed apology,
defaulting to the generic message.  (The `response.text` fast path returns
the same joined text whenever it succeeds.) -/
def _extract_response_text (resp : Response) : String :=
  match resp.candidates with
  | [] => "I apologize, but I couldn" ++ squote
      ++ "t generate a response. Please try again."
  | cand :: _ =>
    let texts := cand.parts.filterMap
      (fun p => if p.text ≠ "" then some p.text else none)
    if ¬ texts.isEmpty then String.intercalate "\n" texts
    else if cand.finish_reason = 3 then
      "I apologize, but I can" ++ squote
        ++ "t respond to that request due to content restrictions."
    else if cand.finish_reason = 12 then
      "I apologize, but I couldn" ++ squote
        ++ "t generate a response. Please try rephrasing your request."
    else
      "I apologize, but I couldn" ++ squote
        ++ "t generate a response. Please try again."

/-- `"finish_reason" in error_str`, via `splitOn`: the pattern occurs in the
string iff splitting on it yields more than one piece. -/
def containsSub (s pat : String) : Bool :=
  (s.splitOn pat).length > 1

/-- The apology produced by `chat`'s `except` handler for a caught
exception's message. -/
def chatApology (e : String) : String :=
  if containsSub e "finish_reason" then
    "I apologize, but I couldn" ++ squote
      ++ "t process that request. Please try rephrasing your message or provide the information in a different way."
  else
    "I encountered an error: " ++ e
      ++ ". Please try again or rephrase your request."

/-- The per-session state of `BookingAssistant` relevant to `chat`:
the display history, the (opaque) dialogue handle, and `max_history`. -/
structure AgentState where
  chat_history : List Entry
  chat_session : Option Unit
  max_history : Nat
deriving Repr

/-- `BookingAssistant.chat` for one user turn.  The dialogue handle is
created lazily; the first `send_message` outcome and the outcomes of the
tool-result submissions come from the oracle.  On the success path the final
text is extracted, the (user, assistant) pair is appended and the history is
trimmed; any caught exception resolves to an apology string with the
history untouched.  `none` is oracle exhaustion (model artifact). -/
def chat (toolMap : ToolMap) (st : AgentState) (userMsg : String)
    (firstOutcome : Except String Response) (next : ModelOutcomes) :
    Option (AgentState × String) :=
  let session : Option Unit := some ()
  match firstOutcome with
  | .error e =>
    some ({ st with chat_session := session }, chatApology e)
  | .ok resp =>
    match runLoop toolMap resp next with
    | .fuel => none
    | .exn e => some ({ st with chat_session := session }, chatApology e)
    | .done _ fin =>
      let text := _extract_response_text fin
      some ({ st with
                chat_session := session
                chat_history :=
                  trim_history st.max_history
                    (st.chat_history ++
                      [{ role := "user", content := userMsg },
                       { role := "assistant", content := text }]) },
            text)

/-! ## Concrete fixtures used by witnesses -/

/-- An embedding endpoint that always raises. -/
def oracleDown : EmbedOracle := fun _ => Except.error "service unavailable"

/-- An embedding endpoint that always returns the empty vector. -/
def oracleNil : EmbedOracle := fun _ => Except.ok []

/-! ## Claims -/

/-- C10: calling `add_documents` with an empty list is a no-op — it returns
at once, issues no embedding request and no collection write, and leaves the
index unchanged. -/
theorem add_documents_empty_noop (supply : Nat) (oracle : EmbedOracle)
    (st : Collection) :
    VectorStore.add_documents supply oracle st [] =
      (st, { embedCalls := [], addIssued := false }) := rfl

/-- C2: if the remote `/search` endpoint returns a non-200 status or the
request raises a network exception (timeouts included), then
`search_knowledge_base` returns exactly what `_search_local_knowledge_base`
produces for the same query over the same index state (both with
`top_k = 3`). -/
theorem remote_failure_falls_back_to_local (oracle : EmbedOracle)
    (st : Collection) (q : String) :
    (∀ status body, status ≠ 200 →
      search_knowledge_base (.http status body) oracle st q =
        _search_local_knowledge_base oracle st q) ∧
    (∀ msg,
      search_knowledge_base (.netExn msg) oracle st q =
        _search_local_knowledge_base oracle st q) := by
  constructor
  · intro status body h
    simp [search_knowledge_base, h]
  · intro msg
    rfl

/-- Witness for C2 at a concrete non-200 status. -/
theorem remote_failure_falls_back_to_local_witness :
    search_knowledge_base (.http 500 (Except.ok [])) oracleDown [] "faq" =
      _search_local_knowledge_base oracleDown [] "faq" :=
  (remote_failure_falls_back_to_local oracleDown [] "faq").1 500
    (Except.ok []) (by decide)

/-- C8: whenever the embedding provider honours its fixed 768-dimension
contract on success, `_get_embedding` and `_get_query_embedding` return a
768-dimensional vector for every input text, and when the provider call
raises they return the all-zero vector of that dimensionality instead of
propagating the exception. -/
theorem embedding_dimension_and_zero_fallback (docO queryO : EmbedOracle)
    (text : String)
    (hdoc : ∀ t v, docO t = Except.ok v → v.length = 768)
    (hq : ∀ t v, queryO t = Except.ok v → v.length = 768) :
    (VectorStore._get_embedding docO text).length = 768 ∧
    (VectorStore._get_query_embedding queryO text).length = 768 ∧
    (∀ e, docO text = Except.error e →
      VectorStore._get_embedding docO text = List.replicate 768 0) ∧
    (∀ e, queryO text = Except.error e →
      VectorStore._get_query_embedding queryO text = List.replicate 768 0) := by
  refine ⟨?_, ?_, ?_, ?_⟩
  · unfold VectorStore._get_embedding
    cases h : docO text with
    | ok v => exact hdoc text v h
    | error e => exact List.length_replicate 768 0
  · unfold VectorStore._get_query_embedding
    cases h : queryO text with
    | ok v => exact hq text v h
    | error e => exact List.length_replicate 768 0
  · intro e he
    unfold VectorStore._get_embedding
    rw [he]
  · intro e he
    unfold VectorStore._get_query_embedding
    rw [he]

/-- Witness for C8 with a provider that always raises. -/
theorem embedding_dimension_and_zero_fallback_witness :
    (VectorStore._get_embedding oracleDown "doc").length = 768 ∧
    VectorStore._get_query_embedding oracleDown "doc" =
      List.replicate 768 0 := by
  have h := embedding_dimension_and_zero_fallback oracleDown oracleDown "doc"
    (fun t v hv => by simp [oracleDown] at hv)
    (fun t v hv => by simp [oracleDown] at hv)
  exact ⟨h.1, h.2.2.2 "service unavailable" rfl⟩

/-- C5: searching an empty or freshly reset index returns the empty result
list, and whenever the taken retrieval path yields no results —
a 200 remote response with an empty result list, or any fallback to a local
search that comes back empty — `search_knowledge_base` returns the fixed
non-empty no-relevant-information message rather than an empty string or an
error. -/
theorem empty_index_empty_results_and_no_info_message :
    (∀ (oracle : EmbedOracle) q k, VectorStore.search oracle [] q k = []) ∧
    (∀ (oracle : EmbedOracle) st q k,
      VectorStore.search oracle (VectorStore.reset_collection st) q k = []) ∧
    (∀ (oracle : EmbedOracle) st q,
      search_knowledge_base (.http 200 (Except.ok [])) oracle st q = noInfoMsg) ∧
    (∀ (oracle : EmbedOracle) st q, VectorStore.search oracle st q 3 = [] →
      _search_local_knowledge_base oracle st q = noInfoMsg) ∧
    (∀ (oracle : EmbedOracle) st q status body, status ≠ 200 →
      VectorStore.search oracle st q 3 = [] →
      search_knowledge_base (.http status body) oracle st q = noInfoMsg) ∧
    (∀ (oracle : EmbedOracle) st q msg, VectorStore.search oracle st q 3 = [] →
      search_knowledge_base (.netExn msg) oracle st q = noInfoMsg) ∧
    noInfoMsg ≠ "" := by
  have hempty : ∀ (oracle : EmbedOracle) q k,
      VectorStore.search oracle [] q k = [] := by
    intro oracle q k
    simp [VectorStore.search, VectorStore.rankByDist]
  have hlocal : ∀ (oracle : EmbedOracle) st q,
      VectorStore.search oracle st q 3 = [] →
      _search_local_knowledge_base oracle st q = noInfoMsg := by
    intro oracle st q h
    simp [_search_local_knowledge_base, h]
  refine ⟨hempty, ?_, ?_, hlocal, ?_, ?_, ?_⟩
  · intro oracle st q k
    exact hempty oracle q k
  · intro oracle st q
    simp [search_knowledge_base]
  · intro oracle st q status body hstatus h
    simp [search_knowledge_base, hstatus, hlocal oracle st q h]
  · intro oracle st q msg h
    simpa [search_knowledge_base] using hlocal oracle st q h
  · decide

/-- Witness for C5: the local fallback on an empty index produces the fixed
message. -/
theorem empty_index_no_info_witness :
    _search_local_knowledge_base oracleDown [] "anything" = noInfoMsg :=
  empty_index_empty_results_and_no_info_message.2.2.2.1 oracleDown []
    "anything" rfl

/-! ## Helper lemmas about the conversation loop -/

lemma scanParts_eq_find (parts : List MsgPart) :
    (scanParts parts).1 = parts.find? (fun p => p.fcName != "") := by
  induction parts with
  | nil => rfl
  | cons p ps ih =>
    by_cases h : p.fcName = ""
    · by_cases ht : p.text = ""
      · simp [scanParts, h, ht, List.find?_cons, ih]
      · simp [scanParts, h, ht, List.find?_cons, ih]
    · simp [scanParts, h, List.find?_cons]

lemma cycleScan_none (resp : Response) (cand : Candidate)
    (cs : List Candidate) (h : resp.candidates = cand :: cs)
    (hn : (scanParts cand.parts).1 = none) :
    cycleScan resp = .ok none := by
  unfold cycleScan
  rw [h]
  by_cases hp : cand.parts.isEmpty <;> simp [hp, hn]

lemma cycleScan_some (resp : Response) (cand : Candidate)
    (cs : List Candidate) (fc : MsgPart) (h : resp.candidates = cand :: cs)
    (hs : (scanParts cand.parts).1 = some fc) :
    cycleScan resp = .ok (some fc) := by
  have hp : cand.parts.isEmpty = false := by
    cases hparts : cand.parts with
    | nil => rw [hparts] at hs; simp [scanParts] at hs
    | cons a l => simp [hparts]
  unfold cycleScan
  rw [h]
  simp [hp, hs]

lemma runLoop_no_fc (toolMap : ToolMap) (fin : Response) (cand : Candidate)
    (cs : List Candidate) (rest : ModelOutcomes)
    (h : fin.candidates = cand :: cs)
    (hn : (scanParts cand.parts).1 = none) :
    runLoop toolMap fin rest = .done [] fin := by
  have hc : cycleScan fin = .ok none := cycleScan_none fin cand cs h hn
  cases rest with
  | nil => simp [runLoop, hc]
  | cons o rest2 => simp [runLoop, hc]

lemma runLoop_step (toolMap : ToolMap) (resp : Response) (cand : Candidate)
    (cs : List Candidate) (fc : MsgPart) (r : Response) (rs : ModelOutcomes)
    (h : resp.candidates = cand :: cs)
    (hs : (scanParts cand.parts).1 = some fc) :
    runLoop toolMap resp (Except.ok r :: rs) =
      (match runLoop toolMap r rs with
       | .done es fin =>
         .done ((fc.fcName, _execute_tool toolMap fc.fcName fc.fcArgs) :: es)
           fin
       | o => o) := by
  have hc : cycleScan resp = .ok (some fc) := cycleScan_some resp cand cs fc h hs
  simp [runLoop, hc]

/-- C3: exactly one tool call is acted on per model-response cycle — the
loop scans the response parts in order, the extracted call is the first
function-call part found (a function call is preferred over any co-occurring
text), and that single call is the only one dispatched for the cycle, any
further function-call parts of the same response being ignored. -/
theorem single_tool_call_per_cycle :
    (∀ parts : List MsgPart,
      (scanParts parts).1 = parts.find? (fun p => p.fcName != "")) ∧
    (∀ (toolMap : ToolMap) (resp : Response) (cand : Candidate)
        (cs : List Candidate) (fc : MsgPart) (r : Response)
        (rs : ModelOutcomes),
      resp.candidates = cand :: cs →
      (scanParts cand.parts).1 = some fc →
      runLoop toolMap resp (Except.ok r :: rs) =
        (match runLoop toolMap r rs with
         | .done es fin =>
           .done ((fc.fcName, _execute_tool toolMap fc.fcName fc.fcArgs) :: es)
             fin
         | o => o)) :=
  ⟨scanParts_eq_find,
   fun toolMap resp cand cs fc r rs h hs =>
     runLoop_step toolMap resp cand cs fc r rs h hs⟩

/-- A response whose single candidate requests the tool `mytool`. -/
def fcPartW : MsgPart := { fcName := "mytool", fcArgs := [], text := "" }

/-- A response carrying one function-call part. -/
def respW : Response := { candidates := [{ parts := [fcPartW] }] }

/-- A final response with no parts (the loop stops on it). -/
def finW : Response := { candidates := [{ parts := [] }] }

/-- Witness for C3: with an empty registry, the cycle on `respW` dispatches
exactly the one extracted call and then finishes on `finW`. -/
theorem single_tool_call_witness :
    runLoop [] respW [Except.ok finW] =
      .done [("mytool", _execute_tool [] "mytool" [])] finW := by
  have h := single_tool_call_per_cycle.2 [] respW { parts := [fcPartW] } []
    fcPartW finW [] rfl (by decide)
  rw [h]
  decide

/-- A session state with a prior exchange in its history. -/
def stW : AgentState :=
  { chat_history := [{ role := "user", content := "prev" },
                     { role := "assistant", content := "prev reply" }]
    chat_session := some ()
    max_history := 20 }

/-- A registered tool that always raises. -/
def failTool : ToolFn := fun _ => Except.error "boom"

/-- A registry holding only the failing tool. -/
def toolMapW : ToolMap := [("search_knowledge_base", failTool)]

/-- C4: tool dispatch never raises — an unregistered name yields the fixed
unknown-tool error string, a raising callable is caught and converted to
the `Error executing` string, and in either case the conversation loop
continues and still produces a final text reply for the turn. -/
theorem tool_dispatch_never_raises :
    (∀ (toolMap : ToolMap) (name : String) (args : Args),
      lookupTool toolMap name = none →
      _execute_tool toolMap name args =
        "Error: Unknown tool " ++ squote ++ name ++ squote) ∧
    (∀ (toolMap : ToolMap) (name : String) (args : Args) (f : ToolFn)
        (e : String),
      lookupTool toolMap name = some f → f args = Except.error e →
      _execute_tool toolMap name args =
        "Error executing " ++ name ++ ": " ++ e) ∧
    (∀ (toolMap : ToolMap) (st : AgentState) (userMsg : String)
        (resp : Response) (cand : Candidate) (cs : List Candidate)
        (fc : MsgPart) (fin : Response) (cand2 : Candidate)
        (cs2 : List Candidate) (rest : ModelOutcomes),
      resp.candidates = cand :: cs →
      (scanParts cand.parts).1 = some fc →
      fin.candidates = cand2 :: cs2 →
      (scanParts cand2.parts).1 = none →
      chat toolMap st userMsg (Except.ok resp) (Except.ok fin :: rest) =
        some ({ st with
                  chat_session := some ()
                  chat_history := trim_history st.max_history
                    (st.chat_history ++
                      [{ role := "user", content := userMsg },
                       { role := "assistant",
                         content := _extract_response_text fin }]) },
              _extract_response_text fin)) := by
  refine ⟨?_, ?_, ?_⟩
  · intro toolMap name args h
    simp [_execute_tool, h]
  · intro toolMap name args f e hf he
    simp [_execute_tool, hf, he]
  · intro toolMap st userMsg resp cand cs fc fin cand2 cs2 rest
      hresp hscan hfin hnone
    have h1 := runLoop_step toolMap resp cand cs fc fin rest hresp hscan
    have h2 := runLoop_no_fc toolMap fin cand2 cs2 rest hfin hnone
    simp [chat, h1, h2]

/-- Witness for C4: an unknown name, a raising registered tool, and a full
turn whose single dispatched call fails while the turn still resolves to the
final text of `finW`. -/
theorem tool_dispatch_witness :
    _execute_tool [] "nope" [] =
      "Error: Unknown tool " ++ squote ++ "nope" ++ squote ∧
    _execute_tool toolMapW "search_knowledge_base" [] =
      "Error executing search_knowledge_base: boom" ∧
    chat toolMapW stW "hi" (Except.ok respW) [Except.ok finW] =
      some ({ stW with
                chat_session := some ()
                chat_history := trim_history stW.max_history
                  (stW.chat_history ++
                    [{ role := "user", content := "hi" },
                     { role := "assistant",
                       content := _extract_response_text finW }]) },
            _extract_response_text finW) :=
  ⟨tool_dispatch_never_raises.1 [] "nope" [] rfl,
   tool_dispatch_never_raises.2.1 toolMapW "search_knowledge_base" [] failTool
     "boom" rfl rfl,
   tool_dispatch_never_raises.2.2 toolMapW stW "hi" respW
     { parts := [fcPartW] } [] fcPartW finW { parts := [] } [] [] rfl
     (by decide) rfl (by decide)⟩

/-- C9: whenever a `chat` call takes the exception path — the first
`send_message` raises, or the tool loop raises (an empty candidate list or a
raising resubmission) — the returned session state carries the history
unchanged: the user message and the apology reply are not appended. -/
theorem chat_exception_leaves_history_unchanged :
    (∀ (toolMap : ToolMap) (st : AgentState) (userMsg e : String)
        (next : ModelOutcomes) (st2 : AgentState) (reply : String),
      chat toolMap st userMsg (Except.error e) next = some (st2, reply) →
      st2.chat_history = st.chat_history) ∧
    (∀ (toolMap : ToolMap) (st : AgentState) (userMsg : String)
        (resp : Response) (next : ModelOutcomes) (e : String)
        (st2 : AgentState) (reply : String),
      runLoop toolMap resp next = .exn e →
      chat toolMap st userMsg (Except.ok resp) next = some (st2, reply) →
      st2.chat_history = st.chat_history) := by
  constructor
  · intro toolMap st userMsg e next st2 reply h
    simp [chat] at h
    rw [← h.1]
  · intro toolMap st userMsg resp next e st2 reply hloop h
    simp [chat, hloop] at h
    rw [← h.1]

/-- Witness for C9: a raising first `send_message` leaves the prior history
in place. -/
theorem chat_exception_witness :
    chat [] stW "msg" (Except.error "down") [] =
      some ({ stW with chat_session := some () }, chatApology "down") ∧
    ({ stW with chat_session := some () } : AgentState).chat_history =
      stW.chat_history :=
  ⟨rfl,
   chat_exception_leaves_history_unchanged.1 [] stW "msg" "down" []
     { stW with chat_session := some () } (chatApology "down") rfl⟩

/-- A chunk of document `X` that carries no `full_content`. -/
def recA : Record :=
  { id := 0, embedding := [], text := "chunk one"
    metadata := [("original_document_id", MValue.str "X")] }

/-- A later chunk of document `X` that does carry `full_content`. -/
def recB : Record :=
  { id := 1, embedding := [], text := "chunk two"
    metadata := [("original_document_id", MValue.str "X"),
                 ("full_content", MValue.str "FULL TEXT")] }

/-- C6 counterexample: with `limit = 1` the lookup reads only the first
record of the group, so when only a later record carries `full_content` the
call returns the empty default instead of the carried full content — the
claim fails at this input. -/
theorem get_full_context_misses_later_record :
    mget recB.metadata "full_content" = some (MValue.str "FULL TEXT") ∧
    (VectorStore.get_full_context [recA, recB] "X").map
        VectorStore.FullContext.full_content = some (MValue.str "") ∧
    MValue.str "" ≠ MValue.str "FULL TEXT" := by
  decide

/-- C6 (amended): the exact-match lookup returns the metadata of the first
record, in insertion order, whose `original_document_id` equals `X`; in
particular whenever that first matching record carries a `full_content`
value, `get_full_context X` returns exactly that full content, independent
of vector similarity. -/
theorem get_full_context_first_match (st : Collection) (odi : String)
    (r : Record) (v : MValue)
    (hfind : st.find? (fun rec =>
        mget rec.metadata "original_document_id" == some (MValue.str odi)) =
      some r)
    (hfc : mget r.metadata "full_content" = some v) :
    (VectorStore.get_full_context st odi).map
      VectorStore.FullContext.full_content = some v := by
  unfold VectorStore.get_full_context
  rw [hfind]
  simp [mgetD, hfc]

/-- Witness for C6 (amended): the group whose first record carries the full
content. -/
theorem get_full_context_first_match_witness :
    (VectorStore.get_full_context [recB] "X").map
      VectorStore.FullContext.full_content = some (MValue.str "FULL TEXT") :=
  get_full_context_first_match [recB] "X" recB (MValue.str "FULL TEXT")
    (by decide) (by decide)

/-- A document whose only metadata entry is non-scalar. -/
def badDoc : Doc :=
  { content := "c", title := "T"
    metadata := [("tags", MValue.listv ["a", "b"])] }

/-- C7 counterexample: the stored metadata is not exactly the scalar-typed
entries of the record's metadata — `add_documents` additionally writes the
record's title under the `title` key, so a record with no scalar metadata
entries is stored with a non-empty metadata mapping. -/
theorem add_documents_stores_extra_title_entry :
    (VectorStore.add_documents 0 oracleNil [] [badDoc]).1.map Record.metadata =
      [[("title", MValue.str "T")]] ∧
    filterScalar badDoc.metadata = [] ∧
    ([("title", MValue.str "T")] : Metadata) ≠ ([] : Metadata) := by
  decide

lemma filterScalar_scalar (m : Metadata) :
    ∀ kv ∈ filterScalar m, kv.2.isScalar = true := by
  intro kv hkv
  exact (List.mem_filter.mp hkv).2

lemma mset_title_scalar (m : Metadata) (t : String)
    (hm : ∀ kv ∈ m, kv.2.isScalar = true) :
    ∀ kv ∈ mset m "title" (MValue.str t), kv.2.isScalar = true := by
  intro kv hkv
  unfold mset at hkv
  split at hkv
  · simp only [List.mem_map] at hkv
    obtain ⟨a, ha, rfl⟩ := hkv
    by_cases hk : a.1 == "title"
    · simp only [hk, ite_true]
      rfl
    · simp only [hk, Bool.false_eq_true, ite_false]
      exact hm a ha
  · rw [List.mem_append] at hkv
    rcases hkv with hkv | hkv
    · exact hm kv hkv
    · rw [List.mem_singleton] at hkv
      rw [hkv]
      rfl

lemma buildRecs_map_id (supply : Nat) (oracle : EmbedOracle)
    (docs : List Doc) :
    (VectorStore.buildRecs supply oracle docs).map Record.id =
      List.range' supply docs.length := by
  induction docs generalizing supply with
  | nil => rfl
  | cons d ds ih =>
    simp [VectorStore.buildRecs, VectorStore.mkRecord, List.range', ih]

lemma buildRecs_map_metadata (supply : Nat) (oracle : EmbedOracle)
    (docs : List Doc) :
    (VectorStore.buildRecs supply oracle docs).map Record.metadata =
      docs.map (fun d =>
        mset (filterScalar d.metadata) "title" (MValue.str d.title)) := by
  induction docs generalizing supply with
  | nil => rfl
  | cons d ds ih =>
    simp [VectorStore.buildRecs, VectorStore.mkRecord, ih]

/-- C7 (amended): `add_documents` appends one record per input document, in
order; each record is assigned a fresh unique id (pairwise distinct); its
stored metadata is the scalar-typed entries of the document's metadata, in
order, with the document's title then written under the `title` key
(overwriting any scalar `title` entry); non-scalar entries are silently
dropped, so every stored metadata value is scalar-typed. -/
theorem add_documents_fresh_ids_and_scalar_metadata (supply : Nat)
    (oracle : EmbedOracle) (st : Collection) (docs : List Doc) :
    (VectorStore.add_documents supply oracle st docs).1 =
      st ++ VectorStore.buildRecs supply oracle docs ∧
    (VectorStore.buildRecs supply oracle docs).map Record.id =
      List.range' supply docs.length ∧
    ((VectorStore.buildRecs supply oracle docs).map Record.id).Nodup ∧
    (VectorStore.buildRecs supply oracle docs).map Record.metadata =
      docs.map (fun d =>
        mset (filterScalar d.metadata) "title" (MValue.str d.title)) ∧
    (∀ m ∈ (VectorStore.buildRecs supply oracle docs).map Record.metadata,
      ∀ kv ∈ m, kv.2.isScalar = true) := by
  refine ⟨?_, buildRecs_map_id supply oracle docs, ?_,
    buildRecs_map_metadata supply oracle docs, ?_⟩
  · cases docs with
    | nil => simp [VectorStore.add_documents, VectorStore.buildRecs]
    | cons d ds => rfl
  · rw [buildRecs_map_id supply oracle docs]
    exact List.nodup_range' supply docs.length 1 Nat.one_pos
  · intro m hm
    rw [buildRecs_map_metadata supply oracle docs] at hm
    simp only [List.mem_map] at hm
    obtain ⟨d, hd, rfl⟩ := hm
    exact mset_title_scalar (filterScalar d.metadata) d.title
      (filterScalar_scalar d.metadata)

/-- Witness for C7 (amended): two upserted documents get distinct ids and a
stored metadata value is scalar. -/
theorem add_documents_fresh_ids_witness :
    ((VectorStore.buildRecs 5 oracleNil [badDoc, badDoc]).map Record.id).Nodup ∧
    MValue.isScalar (MValue.str "T") = true :=
  ⟨(add_documents_fresh_ids_and_scalar_metadata 5 oracleNil []
      [badDoc, badDoc]).2.2.1,
   (add_documents_fresh_ids_and_scalar_metadata 5 oracleNil [] [badDoc]).2.2.2.2
     [("title", MValue.str "T")] (by decide) ("title", MValue.str "T")
     (by decide)⟩

/-- A first exchange. -/
def pairW1 : Entry × Entry :=
  ({ role := "user", content := "u1" }, { role := "assistant", content := "a1" })

/-- A second exchange. -/
def pairW2 : Entry × Entry :=
  ({ role := "user", content := "u2" }, { role := "assistant", content := "a2" })

/-- C1 counterexample: with `max_history = 0` the Python slice
`chat_history[-0:]` keeps the whole list, so one successful call retains 2
entries where the claimed bound `min(2N, 2M)` demands 0. -/
theorem history_bound_fails_at_zero :
    (chatHistoryAfter 0 [pairW1]).length = 2 ∧
    min (2 * 1) (2 * 0) = 0 ∧ (2 : Nat) ≠ 0 := by
  decide

lemma allEntries_length (pairs : List (Entry × Entry)) :
    (allEntries pairs).length = 2 * pairs.length := by
  induction pairs with
  | nil => rfl
  | cons p ps ih =>
    simp only [allEntries, List.length_cons, ih]
    omega

lemma takeLast_length (n : Nat) (l : List Entry) :
    (takeLast n l).length = min n l.length := by
  unfold takeLast
  rw [List.length_drop]
  omega

lemma takeLast_absorb (n : Nat) (L A : List Entry) :
    takeLast n (takeLast n L ++ A) = takeLast n (L ++ A) := by
  unfold takeLast
  rcases le_or_lt L.length n with h | h
  · have hd : L.length - n = 0 := by omega
    rw [hd, List.drop_zero]
  · have hlen : (L.drop (L.length - n)).length = n := by
      rw [List.length_drop]
      omega
    rw [List.length_append, List.length_append, hlen]
    have h1 : n + A.length - n = A.length := by omega
    have h2 : L.length + A.length - n = (L.length - n) + A.length := by omega
    rw [h1, h2, ← List.drop_drop,
      List.drop_append_of_le_length (by omega : L.length - n ≤ L.length)]

lemma runChats_eq_takeLast (M : Nat) (hM : 1 ≤ M) :
    ∀ (pairs : List (Entry × Entry)) (h : List Entry),
      h.length ≤ M * 2 →
      runChats M h pairs =
        takeLast (min (h.length + 2 * pairs.length) (M * 2))
          (h ++ allEntries pairs) := by
  intro pairs
  induction pairs with
  | nil =>
    intro h hle
    simp only [runChats, allEntries, List.append_nil, List.length_nil,
      Nat.mul_zero, Nat.add_zero]
    have hmin : min h.length (M * 2) = h.length := by omega
    rw [hmin]
    unfold takeLast
    simp
  | cons p ps ih =>
    intro h hle
    by_cases hcase : h.length + 2 ≤ M * 2
    · have htrim : chatAppend M h p = h ++ [p.1, p.2] := by
        unfold chatAppend trim_history
        have hnot : ¬ ((h ++ [p.1, p.2]).length > M * 2) := by
          simp only [List.length_append, List.length_cons, List.length_nil]
          omega
        rw [if_neg hnot]
      rw [runChats, htrim,
        ih (h ++ [p.1, p.2]) (by simp only [List.length_append,
          List.length_cons, List.length_nil]; omega)]
      simp only [List.length_append, List.length_cons, List.length_nil,
        allEntries, List.append_assoc, List.cons_append, List.nil_append]
      congr 1
      omega
    · have hgt : (h ++ [p.1, p.2]).length > M * 2 := by
        simp only [List.length_append, List.length_cons, List.length_nil]
        omega
      have hM2 : ¬ (M * 2 = 0) := by omega
      have htrim : chatAppend M h p = takeLast (M * 2) (h ++ [p.1, p.2]) := by
        unfold chatAppend trim_history takeLast
        rw [if_pos hgt, if_neg hM2]
      have hlen2 : (chatAppend M h p).length = M * 2 := by
        rw [htrim, takeLast_length]
        simp only [List.length_append, List.length_cons, List.length_nil]
        omega
      rw [runChats, ih (chatAppend M h p) (by omega), hlen2, htrim]
      have hmin1 : min (M * 2 + 2 * ps.length) (M * 2) = M * 2 := by omega
      rw [hmin1, takeLast_absorb]
      simp only [allEntries, List.length_cons, List.append_assoc,
        List.cons_append, List.nil_append]
      congr 1
      omega

/-- C1 (amended): for every session constructed with `max_history = M ≥ 1`,
after `N` successful chat calls the retained history has length
`min(2N, 2M)` and equals the last `min(2N, 2M)` appended (user, assistant)
entries in their original append order; the retained sequence never exceeds
`2 × max_history` entries and trimming drops only the oldest.  (With
`M = 0` the slice `[-0:]` keeps everything, so the bound requires
`M ≥ 1`.) -/
theorem history_bound (M : Nat) (hM : 1 ≤ M) (pairs : List (Entry × Entry)) :
    (chatHistoryAfter M pairs).length = min (2 * pairs.length) (2 * M) ∧
    chatHistoryAfter M pairs =
      takeLast (min (2 * pairs.length) (2 * M)) (allEntries pairs) := by
  have h := runChats_eq_takeLast M hM pairs [] (by simp)
  unfold chatHistoryAfter
  rw [h]
  simp only [List.nil_append, List.length_nil, Nat.zero_add]
  constructor
  · rw [takeLast_length, allEntries_length]
    omega
  · congr 1
    omega

/-- Witness for C1 (amended) at `M = 1` with two exchanges. -/
theorem history_bound_witness :
    1 ≤ 1 ∧
    (chatHistoryAfter 1 [pairW1, pairW2]).length = min (2 * 2) (2 * 1) ∧
    chatHistoryAfter 1 [pairW1, pairW2] =
      takeLast (min (2 * 2) (2 * 1)) (allEntries [pairW1, pairW2]) :=
  ⟨Nat.le_refl 1,
   (history_bound 1 (Nat.le_refl 1) [pairW1, pairW2]).1,
   (history_bound 1 (Nat.le_refl 1) [pairW1, pairW2]).2⟩
